import Mathlib

/-!
Verification development for the torchdynamo builtin-operation dispatcher
(`torchdynamo/variables/builtin.py`): a shallow embedding of
`BuiltinVariable.call_function`, its specialized handlers, and
`BuiltinVariable.call_getattr`, together with theorems about the dispatch
decision procedure.

External collaborators (the output-graph port, the value-builder port, the
module registry, and the receiver capabilities of other variable classes)
are not part of the excerpt; they are modelled abstractly as an environment
record, following the specification of the external interfaces.
-/

/-- Host-language type objects, as far as the dispatcher observes them. -/
inductive HType where
  | noneT
  | boolT
  | intT
  | strT
  | listT
  | tupleT
  | typeT
  | builtinFnT
  | tensorT
  | userT (name : String)
  deriving DecidableEq, Repr

set_option maxHeartbeats 1000000 in
/-- The fixed set of builtin operations the dispatcher can be instantiated
with: the constant-foldable builtins, the operator family that can be
inserted in the graph, the functions of the math namespace, and the
remaining builtins that have specialized handlers
(`functools.reduce`, `getattr`, `isinstance`). -/
inductive Fn where
  | absF | allF | anyF | boolF | callableF | chrF | dictF | divmodF
  | floatF | intF | lenF | listF | maxF | minF | ordF | powF | reprF
  | roundF | setF | strF | sumF | tupleF | typeF
  | pos | neg | not_ | invert | opPow | mul | matmul | floordiv | truediv
  | mod | add | sub | getitem | lshift | rshift | and_ | or_ | xor
  | ipow | imul | imatmul | ifloordiv | itruediv | imod | iadd | isub
  | ilshift | irshift | iand | ixor | ior
  | mathFn (name : String)
  | reduceF | getattrF | isinstanceF
  deriving Repr

/-- `fn.__name__`, used by the dispatcher to resolve `call_<name>` handlers
and to format diagnostics. -/
def Fn.pyName : Fn → String
  | .absF => "abs" | .allF => "all" | .anyF => "any" | .boolF => "bool"
  | .callableF => "callable" | .chrF => "chr" | .dictF => "dict"
  | .divmodF => "divmod" | .floatF => "float" | .intF => "int"
  | .lenF => "len" | .listF => "list" | .maxF => "max" | .minF => "min"
  | .ordF => "ord" | .powF => "pow" | .reprF => "repr" | .roundF => "round"
  | .setF => "set" | .strF => "str" | .sumF => "sum" | .tupleF => "tuple"
  | .typeF => "type"
  | .pos => "pos" | .neg => "neg" | .not_ => "not_" | .invert => "invert"
  | .opPow => "pow" | .mul => "mul" | .matmul => "matmul"
  | .floordiv => "floordiv" | .truediv => "truediv" | .mod => "mod"
  | .add => "add" | .sub => "sub" | .getitem => "getitem"
  | .lshift => "lshift" | .rshift => "rshift" | .and_ => "and_"
  | .or_ => "or_" | .xor => "xor"
  | .ipow => "ipow" | .imul => "imul" | .imatmul => "imatmul"
  | .ifloordiv => "ifloordiv" | .itruediv => "itruediv" | .imod => "imod"
  | .iadd => "iadd" | .isub => "isub" | .ilshift => "ilshift"
  | .irshift => "irshift" | .iand => "iand" | .ixor => "ixor"
  | .ior => "ior"
  | .mathFn s => s
  | .reduceF => "reduce" | .getattrF => "getattr"
  | .isinstanceF => "isinstance"

/-- A flat encoding of `Fn`, used to decide equality. -/
def Fn.enc : Fn → Nat × String
  | .absF => (0, "") | .allF => (1, "") | .anyF => (2, "")
  | .boolF => (3, "") | .callableF => (4, "") | .chrF => (5, "")
  | .dictF => (6, "") | .divmodF => (7, "") | .floatF => (8, "")
  | .intF => (9, "") | .lenF => (10, "") | .listF => (11, "")
  | .maxF => (12, "") | .minF => (13, "") | .ordF => (14, "")
  | .powF => (15, "") | .reprF => (16, "") | .roundF => (17, "")
  | .setF => (18, "") | .strF => (19, "") | .sumF => (20, "")
  | .tupleF => (21, "") | .typeF => (22, "")
  | .pos => (23, "") | .neg => (24, "") | .not_ => (25, "")
  | .invert => (26, "") | .opPow => (27, "") | .mul => (28, "")
  | .matmul => (29, "") | .floordiv => (30, "") | .truediv => (31, "")
  | .mod => (32, "") | .add => (33, "") | .sub => (34, "")
  | .getitem => (35, "") | .lshift => (36, "") | .rshift => (37, "")
  | .and_ => (38, "") | .or_ => (39, "") | .xor => (40, "")
  | .ipow => (41, "") | .imul => (42, "") | .imatmul => (43, "")
  | .ifloordiv => (44, "") | .itruediv => (45, "") | .imod => (46, "")
  | .iadd => (47, "") | .isub => (48, "") | .ilshift => (49, "")
  | .irshift => (50, "") | .iand => (51, "") | .ixor => (52, "")
  | .ior => (53, "")
  | .mathFn s => (54, s)
  | .reduceF => (55, "") | .getattrF => (56, "") | .isinstanceF => (57, "")

/-- The partial inverse of `Fn.enc`. -/
def Fn.dec (p : Nat × String) : Fn :=
  match p.1 with
  | 0 => .absF | 1 => .allF | 2 => .anyF | 3 => .boolF | 4 => .callableF
  | 5 => .chrF | 6 => .dictF | 7 => .divmodF | 8 => .floatF | 9 => .intF
  | 10 => .lenF | 11 => .listF | 12 => .maxF | 13 => .minF | 14 => .ordF
  | 15 => .powF | 16 => .reprF | 17 => .roundF | 18 => .setF
  | 19 => .strF | 20 => .sumF | 21 => .tupleF | 22 => .typeF
  | 23 => .pos | 24 => .neg | 25 => .not_ | 26 => .invert | 27 => .opPow
  | 28 => .mul | 29 => .matmul | 30 => .floordiv | 31 => .truediv
  | 32 => .mod | 33 => .add | 34 => .sub | 35 => .getitem | 36 => .lshift
  | 37 => .rshift | 38 => .and_ | 39 => .or_ | 40 => .xor | 41 => .ipow
  | 42 => .imul | 43 => .imatmul | 44 => .ifloordiv | 45 => .itruediv
  | 46 => .imod | 47 => .iadd | 48 => .isub | 49 => .ilshift
  | 50 => .irshift | 51 => .iand | 52 => .ixor | 53 => .ior
  | 54 => .mathFn p.2
  | 55 => .reduceF | 56 => .getattrF | _ => .isinstanceF

theorem Fn.dec_enc : ∀ f : Fn, Fn.dec (Fn.enc f) = f := by
  intro f
  cases f <;> rfl

instance : DecidableEq Fn := fun a b =>
  if h : Fn.enc a = Fn.enc b then
    .isTrue (by
      have h2 := congrArg Fn.dec h
      rwa [Fn.dec_enc, Fn.dec_enc] at h2)
  else .isFalse (fun he => h (congrArg Fn.enc he))

/-- Primitive payloads of `ConstantVariable`: literals of the host
language, plus type objects and builtin-function objects (whose
`as_python_constant` is defined in the source). -/
inductive Prim where
  | noneP
  | boolP (b : Bool)
  | intP (n : Int)
  | strP (s : String)
  | pytype (t : HType)
  | fnVal (f : Fn)
  deriving DecidableEq, Repr

/-- The host type of a primitive payload (`type(value)`). -/
def Prim.primType : Prim → HType
  | .noneP => .noneT
  | .boolP _ => .boolT
  | .intP _ => .intT
  | .strP _ => .strT
  | .pytype _ => .typeT
  | .fnVal _ => .builtinFnT

/-- Provenance descriptors (`Source` objects): how a value is re-derived
from program inputs.  `attrS` models `AttrSource`, `nnModuleS` models
`NNModuleSource`. -/
inductive Source where
  | localS (name : String)
  | attrS (base : Source) (name : String)
  | nnModuleS (inner : Source)
  deriving DecidableEq, Repr

/-- The metadata every `VariableTracker` carries: the guard set and the
optional provenance. -/
structure Info where
  guards : Finset Nat
  source : Option Source
  deriving DecidableEq

/-- Reference to a concrete host function (used for properties, class
methods, static methods and plain functions found on a module class). -/
structure HostFn where
  name : String
  module : String
  tag : Nat
  deriving DecidableEq, Repr

/-- Concrete host values discovered during attribute resolution (module
members, parameters, buffers, sub-modules, plain literals). -/
inductive Host where
  | primH (p : Prim)
  | tensorH (id : Nat)
  | moduleH (key : Nat)
  | fnH (f : HostFn)
  | otherH (tag : String)
  deriving DecidableEq, Repr

/-- A member found by `inspect.getattr_static` on the type of a structured
object: a property, a class method, a static method, a plain function, or
some other descriptor. -/
inductive StaticMember where
  | propM (getter : HostFn)
  | classMethodM (f : HostFn)
  | staticMethodM (f : HostFn)
  | functionM (f : HostFn)
  | otherM (desc : String)
  deriving DecidableEq, Repr

/-- Modelled from the spec: the structured-object registry entry backing an
`NNModuleVariable` (external collaborator, §6): the direct instance fields
and the nested sub-object / parameter / buffer tables, plus the static
attribute table of the object's type. -/
structure NNModuleObj where
  fields : List (String × Host)
  modulesT : List (String × Host)
  parametersT : List (String × Host)
  buffersT : List (String × Host)
  typeName : String
  staticAttrs : List (String × StaticMember)

/-- The symbolic-value tagged union (the `VariableTracker` hierarchy),
restricted to the variants the dispatcher and attribute resolver
manipulate.  Each constructor carries its `Info` (guards and source). -/
inductive Variable where
  | Constant (value : Prim) (i : Info)
  | Tensor (node : Nat) (size : Option (List Nat)) (i : Info)
  | ListV (items : List Variable) (mutb : Bool) (i : Info)
  | TupleV (items : List Variable) (mutb : Bool) (i : Info)
  | NamedTupleV (items : List Variable) (fields : List String) (i : Info)
  | NNModule (key : Nat) (i : Info)
  | TorchV (value : Host) (i : Info)
  | PyModule (key : Nat) (i : Info)
  | UserObject (ty : HType) (i : Info)
  | UserFunction (fn : HostFn) (i : Info)
  | UserMethod (fn : HostFn) (receiver : Variable) (i : Info)
  | Builtin (fn : Fn) (i : Info)
  | GetAttrV (obj : Variable) (name : String) (i : Info)

/-- The `Info` carried by a variable. -/
def Variable.info : Variable → Info
  | .Constant _ i => i
  | .Tensor _ _ i => i
  | .ListV _ _ i => i
  | .TupleV _ _ i => i
  | .NamedTupleV _ _ i => i
  | .NNModule _ i => i
  | .TorchV _ i => i
  | .PyModule _ i => i
  | .UserObject _ i => i
  | .UserFunction _ i => i
  | .UserMethod _ _ i => i
  | .Builtin _ i => i
  | .GetAttrV _ _ i => i

/-- Replace the `Info` of a variable, keeping its payload. -/
def Variable.setInfo : Variable → Info → Variable
  | .Constant v _, i => .Constant v i
  | .Tensor n sz _, i => .Tensor n sz i
  | .ListV xs m _, i => .ListV xs m i
  | .TupleV xs m _, i => .TupleV xs m i
  | .NamedTupleV xs fs _, i => .NamedTupleV xs fs i
  | .NNModule k _, i => .NNModule k i
  | .TorchV t _, i => .TorchV t i
  | .PyModule k _, i => .PyModule k i
  | .UserObject t _, i => .UserObject t i
  | .UserFunction f _, i => .UserFunction f i
  | .UserMethod f r _, i => .UserMethod f r i
  | .Builtin f _, i => .Builtin f i
  | .GetAttrV o n _, i => .GetAttrV o n i

/-- The guard set of a variable. -/
def Variable.guards (v : Variable) : Finset Nat := v.info.guards

/-- The provenance of a variable. -/
def Variable.source (v : Variable) : Option Source := v.info.source

/-- Merged options produced by `VariableTracker.propagate`: the unioned
guard set and, when unambiguous, a provenance. -/
structure Options where
  guards : Finset Nat
  source : Option Source
  deriving DecidableEq

/-- Modelled from the spec: `VariableTracker.propagate` (in `base.py`, not
part of the excerpt).  Guards merge by set union over all operands plus the
primary; provenance is taken from the primary if present. -/
def propagate (primary : Info) (ops : List Variable) : Options :=
  ⟨ops.foldl (fun g v => g ∪ v.guards) primary.guards, primary.source⟩

/-- Modelled from the spec: `VariableTracker.add_guards` (in `base.py`, not
part of the excerpt): attach additional guard predicates to a value. -/
def Variable.add_guards (v : Variable) (g : Finset Nat) : Variable :=
  v.setInfo ⟨v.info.guards ∪ g, v.info.source⟩

/-- Modelled from the spec: `VariableTracker.add_options` (in `base.py`,
not part of the excerpt): attach merged options to a produced value.  The
guard set grows by union; a provenance is attached only when the value has
none of its own. -/
def Variable.add_options (v : Variable) (o : Options) : Variable :=
  v.setInfo ⟨v.info.guards ∪ o.guards,
    match v.info.source with
    | some s => some s
    | none => o.source⟩

/-- `clone(source=s)`: replace the provenance of a value (possibly clearing
it), keeping everything else. -/
def Variable.cloneSource (v : Variable) (s : Option Source) : Variable :=
  v.setInfo ⟨v.info.guards, s⟩

/-- Failure signals that can cross the dispatcher's boundary.
`unsupported` models the `Unsupported` graph-break exception; `typeError`,
`assertError`, `notImplemented`, `indexError`, `keyError` and
`attributeError` model the corresponding host exceptions; `fuelOut` is the
embedding's recursion bound. -/
inductive Exc where
  | unsupported (msg : String)
  | typeError (msg : String)
  | assertError (msg : String)
  | notImplemented (msg : String)
  | indexError (msg : String)
  | keyError (msg : String)
  | attributeError (msg : String)
  | fuelOut
  deriving DecidableEq, Repr

/-- Result of a dispatcher step: the value or the raised exception,
together with the list of failure occurrences recorded in the failure-rate
statistics (modelled from the spec: raising an unsupported-construct
failure records one occurrence; `Unsupported.remove_from_stats` removes
it). -/
abbrev M (α : Type) : Type := Except Exc α × List String

/-- Normal return with no recorded failure. -/
def mret {α : Type} (a : α) : M α := (Except.ok a, [])

/-- Raise a host exception (no failure-rate record). -/
def mraise {α : Type} (e : Exc) : M α := (Except.error e, [])

/-- Modelled from the spec: `unimplemented` (in `utils.py`, not part of
the excerpt) raises an `Unsupported` graph-break failure carrying a
diagnostic message and records the occurrence in the failure-rate
statistics. -/
def munimpl {α : Type} (msg : String) : M α :=
  (Except.error (Exc.unsupported msg), [msg])

/-- Prepend previously recorded failure occurrences to a result. -/
def withLog {α : Type} (s : List String) (x : M α) : M α :=
  (x.1, s ++ x.2)

/-- Modelled from the spec: `Unsupported.remove_from_stats` excludes a
recoverable occurrence from the failure-rate statistics. -/
def removeFromStats (msg : String) (log : List String) : List String :=
  log.erase msg

/-- List-prefix test over characters. -/
def leadsWith : List Char → List Char → Bool
  | [], _ => true
  | _ :: _, [] => false
  | a :: as, b :: bs => a = b && leadsWith as bs

/-- Occurs-somewhere test over characters. -/
def occursIn (pat : List Char) : List Char → Bool
  | [] => pat.isEmpty
  | c :: rest => leadsWith pat (c :: rest) || occursIn pat rest

/-- Substring test, used for the `assert "argument" in str(exc)` check. -/
def containsSub (s pat : String) : Bool :=
  occursIn pat.toList s.toList

/-- `is_python_constant`: whether `as_python_constant` is defined.  In the
excerpt this holds for `ConstantVariable` payloads and for
`BuiltinVariable` (whose `as_python_constant` returns the function); the
base class raises `NotImplementedError` for the rest. -/
def Variable.is_python_constant : Variable → Bool
  | .Constant _ _ => true
  | .Builtin _ _ => true
  | _ => false

/-- `as_python_constant`: the concrete payload of a compile-time constant,
`none` modelling the `NotImplementedError` of the base class. -/
def Variable.as_python_constant : Variable → Option Prim
  | .Constant v _ => some v
  | .Builtin f _ => some (.fnVal f)
  | _ => none

/-- Whether a variable is a `ConstantVariable` (used by the in-place-add
rewrite and by `call_mul`). -/
def Variable.isConstant : Variable → Bool
  | .Constant _ _ => true
  | _ => false

/-- Whether a variable is a `TensorVariable`. -/
def Variable.isTensor : Variable → Bool
  | .Tensor _ _ _ => true
  | _ => false

/-- Keyword-argument lists, ordered as the host dict iterates them. -/
abbrev KW := List (String × Variable)

/-- `check_constant_args` (in `utils.py`, modelled from the spec): true iff
every positional and keyword argument is a compile-time constant. -/
def checkConstantArgs (args : List Variable) (kwargs : KW) : Bool :=
  args.all Variable.is_python_constant &&
    kwargs.all (fun p => p.2.is_python_constant)

/-- `BuiltinVariable.tensor_args`: true iff any positional or keyword
argument is a `TensorVariable`. -/
def tensorArgs (args : List Variable) (kwargs : KW) : Bool :=
  args.any Variable.isTensor || kwargs.any (fun p => p.2.isTensor)

/-- Modelled from the spec: the sequence-unpacking capability
(`has_unpack_var_sequence` / `unpack_var_sequence`, implemented by the
list-like variable classes outside the excerpt): list and tuple variables
yield their items. -/
def unpackVarSequence : Variable → Option (List Variable)
  | .ListV items _ _ => some items
  | .TupleV items _ _ => some items
  | .NamedTupleV items _ _ => some items
  | _ => none

/-- Modelled from the spec: `python_type` of the variable variants whose
implementation lies outside the excerpt; the base class raises
`NotImplementedError` (`none`). -/
def Variable.python_type : Variable → Option HType
  | .Constant v _ => some v.primType
  | .Tensor _ _ _ => some .tensorT
  | .ListV _ _ _ => some .listT
  | .TupleV _ _ _ => some .tupleT
  | .Builtin _ _ => some .builtinFnT
  | .UserObject t _ => some t
  | _ => none

/-- `BuiltinVariable._constant_fold_functions` membership
(`can_constant_fold_through`): the builtins that are pure functions of
primitive arguments, the operator family, and the functions of the math
namespace. -/
def canConstantFold : Fn → Bool
  | .absF | .allF | .anyF | .boolF | .callableF | .chrF | .dictF | .divmodF
  | .floatF | .intF | .lenF | .listF | .maxF | .minF | .ordF | .powF
  | .reprF | .roundF | .setF | .strF | .sumF | .tupleF | .typeF
  | .pos | .neg | .not_ | .invert | .opPow | .mul | .matmul | .floordiv
  | .truediv | .mod | .add | .sub | .getitem | .lshift | .rshift
  | .and_ | .or_ | .xor
  | .ipow | .imul | .imatmul | .ifloordiv | .itruediv | .imod | .iadd
  | .isub | .ilshift | .irshift | .iand | .ixor | .ior
  | .mathFn _ => true
  | _ => false

/-- `BuiltinVariable._fx_graph_functions` membership
(`can_insert_in_graph`): the arithmetic/bitwise operator family and its
in-place counterparts. -/
def canInsertInGraph : Fn → Bool
  | .pos | .neg | .not_ | .invert | .opPow | .mul | .matmul | .floordiv
  | .truediv | .mod | .add | .sub | .getitem | .lshift | .rshift
  | .and_ | .or_ | .xor
  | .ipow | .imul | .imatmul | .ifloordiv | .itruediv | .imod | .iadd
  | .isub | .ilshift | .irshift | .iand | .ixor | .ior => true
  | _ => false

/-- Direct host evaluation of a builtin on primitive payloads
(`self.as_python_constant()(*args, **kwargs)` in the constant-fold step),
on the payload shapes this development exercises; `none` models a host
exception for the rest. -/
def pyApply : Fn → List Prim → List (String × Prim) → Option Prim
  | .add, [.intP a, .intP b], [] => some (.intP (a + b))
  | .add, [.strP a, .strP b], [] => some (.strP (a ++ b))
  | .iadd, [.intP a, .intP b], [] => some (.intP (a + b))
  | .sub, [.intP a, .intP b], [] => some (.intP (a - b))
  | .mul, [.intP a, .intP b], [] => some (.intP (a * b))
  | .neg, [.intP a], [] => some (.intP (-a))
  | .absF, [.intP a], [] => some (.intP (if a < 0 then -a else a))
  | .lenF, [.strP s], [] => some (.intP s.length)
  | .boolF, [.intP a], [] => some (.boolP (decide (a ≠ 0)))
  | _, _, _ => none

/-- Opaque proxies forwarded to the output graph port: a graph-node
reference for tensors, the literal for constants. -/
inductive PArg where
  | nodeP (n : Nat)
  | constP (p : Prim)
  deriving DecidableEq, Repr

/-- `as_proxy`: tensors proxy to their graph node, constants to their
literal; the base class raises `NotImplementedError` (`none`) for the
rest. -/
def Variable.as_proxy : Variable → Option PArg
  | .Tensor n _ _ => some (.nodeP n)
  | .Constant p _ => some (.constP p)
  | _ => none

/-- Map a partial function over a list, failing when any element fails. -/
def mapOpt {α β : Type} (f : α → Option β) : List α → Option (List β)
  | [] => some []
  | x :: xs =>
    match f x with
    | none => none
    | some y => (mapOpt f xs).map (fun ys => y :: ys)

/-- `proxy_args_kwargs` (in `utils.py`, modelled from the spec): convert
all operands to opaque proxies; `none` models the `NotImplementedError`
raised when an operand has no proxy form. -/
def proxyArgsKwargs (args : List Variable) (kwargs : KW) :
    Option (List PArg × List (String × PArg)) :=
  match mapOpt Variable.as_proxy args with
  | none => none
  | some pa =>
    match mapOpt (fun p => (p.2.as_proxy).map (fun q => (p.1, q))) kwargs with
    | none => none
    | some pk => some (pa, pk)

/-- The external collaborators of the dispatcher, modelled from the spec
(§6): the output graph port (`insertCall`, combining `create_proxy` and
`TensorVariable.create`; `none` is a rejected insertion), the receivers'
method-call and call capabilities, the structured-object registry, the
value builder port, and the host-level attribute stores. -/
structure Env where
  insertCall : Fn → List PArg → List (String × PArg) → Option Nat
  callMethod : Variable → String → List Variable → KW → M Variable
  callVar : Variable → List Variable → KW → M Variable
  torchCall : String → List Variable → KW → M Variable
  getSubmodule : Nat → Option NNModuleObj
  build : Option Source → Host → M Variable
  userFnCall : HostFn → Finset Nat → Variable → M Variable
  varAttr : Variable → String → M Variable
  hostGetattr : Host → String → Option Host
  isDisallowed : Host → Bool
  moduleDict : Nat → String → Option Host

/-- The recursive entry point handlers use to re-enter the dispatcher
(`BuiltinVariable(...).call_function(tx, ...)`). -/
abbrev RecFn := Env → Fn → Info → List Variable → KW → M Variable

/-- A specialized handler (`call_<name>`): given the typed operands it may
produce a value, produce nothing (handler does not apply), or raise. -/
abbrev HandlerFn := RecFn → Env → Info → List Variable → KW → M (Option Variable)

/-- Lift a value-producing computation into a handler result. -/
def mopt (x : M Variable) : M (Option Variable) := (x.1.map some, x.2)

/-- Map the produced value of a computation. -/
def mmap (f : Variable → Variable) (x : M Variable) : M Variable :=
  (x.1.map f, x.2)

/-- `BuiltinVariable._call_min_max` (bound as `call_min` and `call_max`):
with a tensor operand, emit a clamp node when the other operand is a
literal and an element-wise min/max node otherwise; with no tensor
operand, defer. -/
def callMinMax (isMax : Bool) : HandlerFn := fun _ env _ args kwargs =>
  match args, kwargs with
  | [a, b], [] =>
    if tensorArgs [a, b] [] then
      let p := if a.isTensor then (a, b) else (b, a)
      if p.1.isTensor then
        if p.2.is_python_constant then
          mopt (env.torchCall "clamp" [p.1]
            [((if isMax then "min" else "max"), p.2)])
        else
          mopt (env.torchCall (if isMax then "maximum" else "minimum")
            [p.1, p.2] [])
      else mraise (.assertError "expected TensorVariable")
    else mret none
  | _, _ => mraise (.typeError "positional argument mismatch")

/-- `BuiltinVariable._call_iter_tuple_list` (bound as `call_tuple` and
`call_list`): zero arguments give an empty mutable sequence; one
sequence-unpackable argument gives a fresh mutable sequence of its
elements; otherwise defer. -/
def callIterTupleList (isList : Bool) : HandlerFn := fun _ _ _ args kwargs =>
  match args, kwargs with
  | [], [] =>
    mret (some (if isList then .ListV [] true ⟨∅, none⟩
      else .TupleV [] true ⟨∅, none⟩))
  | [obj], [] =>
    match unpackVarSequence obj with
    | some items =>
      mret (some (if isList then .ListV items true ⟨∅, none⟩
        else .TupleV items true ⟨∅, none⟩))
    | none => mret none
  | _, _ => mraise (.typeError "positional argument mismatch")

/-- Concatenate a list with itself `n` times (host sequence repetition). -/
def listMulInt (items : List Variable) (n : Int) : List Variable :=
  (List.replicate n.toNat items).flatten

/-- A primitive usable as a host repetition count (`int`, with `bool`
coercing). -/
def primAsIndex : Prim → Option Int
  | .intP n => some n
  | .boolP b => some (if b then 1 else 0)
  | _ => none

/-- Whether a variable is a list or tuple sequence. -/
def Variable.isListOrTuple : Variable → Bool
  | .ListV _ _ _ => true
  | .TupleV _ _ _ => true
  | _ => false

/-- The items of a sequence variable. -/
def Variable.seqItems : Variable → List Variable
  | .ListV items _ _ => items
  | .TupleV items _ _ => items
  | .NamedTupleV items _ _ => items
  | _ => []

/-- `clone(items=...)`: copy a sequence variable with new items. -/
def Variable.cloneItems : Variable → List Variable → Variable
  | .ListV _ m i, xs => .ListV xs m i
  | .TupleV _ m i, xs => .TupleV xs m i
  | .NamedTupleV _ fs i, xs => .NamedTupleV xs fs i
  | v, _ => v

/-- `BuiltinVariable.call_mul`: a list/tuple sequence times a constant
integer clones the sequence with repeated items (the sequence may be on
either side); otherwise defer. -/
def callMul : HandlerFn := fun _ _ _ args kwargs =>
  match args, kwargs with
  | [a, b], [] =>
    if a.isListOrTuple && b.isConstant then
      match b.as_python_constant with
      | some p =>
        match primAsIndex p with
        | some n => mret (some (a.cloneItems (listMulInt a.seqItems n)))
        | none => mraise (.typeError "cannot multiply sequence by non-int")
      | none => mraise (.notImplemented "as_python_constant")
    else if b.isListOrTuple && a.isConstant then
      match a.as_python_constant with
      | some p =>
        match primAsIndex p with
        | some n => mret (some (b.cloneItems (listMulInt b.seqItems n)))
        | none => mraise (.typeError "cannot multiply sequence by non-int")
      | none => mraise (.notImplemented "as_python_constant")
    else mret none
  | _, _ => mraise (.typeError "positional argument mismatch")

/-- `call_len` / `call_add` / `call_iadd` / `call_getitem`: double-dispatch
to the first operand's own method implementation. -/
def callMethodHandler (meth : String) : HandlerFn := fun _ env _ args kwargs =>
  match args with
  | [] => mraise (.indexError "args[0]")
  | a0 :: rest => mopt (env.callMethod a0 meth rest kwargs)

/-- Host subclass relation on type objects (identity, with `bool` a
subclass of `int`). -/
def subclassB (a b : HType) : Bool := a = b || (a = .boolT && b = .intT)

/-- `issubclass(arg_type, isinstance_type)`: defined when the second
operand is a type object, `none` modelling the host `TypeError`
otherwise. -/
def issubCheck (t : HType) (p : Prim) : Option Bool :=
  match p with
  | .pytype t2 => some (subclassB t t2)
  | _ => none

/-- `BuiltinVariable.call_isinstance`: subclass test between the
receiver's symbolic type and the constant type operand, falling back to an
identity comparison on a host `TypeError`; always a constant boolean. -/
def callIsinstance : HandlerFn := fun _ _ _ args kwargs =>
  match args, kwargs with
  | [arg, ity], [] =>
    match arg.python_type with
    | none => mraise (.notImplemented "python_type")
    | some t =>
      match ity.as_python_constant with
      | none => mraise (.notImplemented "as_python_constant")
      | some p =>
        let val := match issubCheck t p with
          | some b => b
          | none => decide (Prim.pytype t = p)
        mret (some (.Constant (.boolP val) ⟨∅, none⟩))
  | _, _ => mraise (.typeError "positional argument mismatch")

/-- `dict.pop(key, default)` over an ordered keyword list. -/
def popKw (k : String) (dflt : Variable) : KW → Variable × KW
  | [] => (dflt, [])
  | (k2, v) :: rest =>
    if k2 = k then (v, rest)
    else
      let r := popKw k dflt rest
      (r.1, (k2, v) :: r.2)

/-- Host slice `l[k:]`: negative indices count from the end and clamp. -/
def pySliceFrom {α : Type} (l : List α) (k : Int) : List α :=
  l.drop (if k < 0 then ((l.length : Int) + k).toNat else k.toNat)

/-- `BuiltinVariable.call_sum`: for a sequence-unpackable operand, pop the
optional constant `start` (default 0), use it as a slice index into the
unpacked sequence, and dispatch a `functools.reduce` of `operator.add`
over the slice seeded with a fresh zero constant. -/
def callSum : HandlerFn := fun rec env selfI args kwargs =>
  match args with
  | [seq] =>
    match unpackVarSequence seq with
    | none => mret none
    | some elems =>
      let pk := popKw "start" (.Constant (.intP 0) ⟨∅, none⟩) kwargs
      match pk.1.as_python_constant with
      | none => mraise (.notImplemented "as_python_constant")
      | some (.intP k) =>
        if pk.2.isEmpty then
          mopt (rec env .reduceF ⟨∅, none⟩
            [.Builtin .add ⟨∅, none⟩,
             .TupleV (pySliceFrom elems k) false ⟨∅, none⟩,
             (Variable.Constant (.intP 0) ⟨∅, none⟩).add_options
               (propagate selfI [seq])]
            [])
        else mraise (.assertError "kwargs")
      | some _ => mraise (.typeError "slice indices must be integers")
  | _ => mraise (.typeError "positional argument mismatch")

/-- Invoke a symbolic value as a callable: builtins re-enter the
dispatcher, everything else uses its own (external) call capability. -/
def varCallFunction (rec : RecFn) (env : Env) :
    Variable → List Variable → KW → M Variable
  | .Builtin fn i, args, kwargs => rec env fn i args kwargs
  | v, args, kwargs => env.callVar v args kwargs

/-- The accumulation loop of `call_reduce`: fold the callable over the
remaining elements. -/
def reduceLoop (call : List Variable → KW → M Variable) :
    Variable → List Variable → M Variable
  | v, [] => mret v
  | v, e :: rest =>
    match call [v, e] [] with
    | (Except.ok v2, s) => withLog s (reduceLoop call v2 rest)
    | (Except.error err, s) => (Except.error err, s)

/-- `BuiltinVariable.call_reduce`: for a sequence-unpackable operand, seed
from the first element when no initializer is given (folding over the
remainder), else fold over all elements from the initializer. -/
def callReduce : HandlerFn := fun rec env _ args kwargs =>
  let bound : Option (Variable × Variable × Option Variable) :=
    match args, kwargs with
    | [f, it], [] => some (f, it, none)
    | [f, it, init0], [] => some (f, it, some init0)
    | [f, it], [("initializer", init0)] => some (f, it, some init0)
    | _, _ => none
  match bound with
  | none => mraise (.typeError "positional argument mismatch")
  | some (function, iterable, initializer) =>
    match unpackVarSequence iterable with
    | none => mret none
    | some items =>
      match initializer with
      | none =>
        match items with
        | [] => mraise (.indexError "items[0]")
        | v0 :: rest =>
          mopt (reduceLoop (varCallFunction rec env function) v0 rest)
      | some v0 =>
        mopt (reduceLoop (varCallFunction rec env function) v0 items)

/-- The ordered lookup of `call_getattr` across an `nn.Module`'s direct
instance fields, then its sub-module, parameter, and buffer tables. -/
def nnLookup (base : NNModuleObj) (name : String) : Option Host :=
  match base.fields.lookup name with
  | some h => some h
  | none =>
    match base.modulesT.lookup name with
    | some h => some h
    | none =>
      match base.parametersT.lookup name with
      | some h => some h
      | none => base.buffersT.lookup name

/-- Wrap a host value through the value builder port and attach the
accumulated guards (`VariableBuilder(tx, src)(subobj).add_guards(guards)`). -/
def buildAdd (env : Env) (src : Option Source) (h : Host)
    (guards : Finset Nat) : M Variable :=
  mmap (fun v => v.add_guards guards) (env.build src h)

/-- The body of `BuiltinVariable.call_getattr` after operand binding and
precondition checks: branch on the receiver's variant. -/
def callGetattrCore (env : Env) (selfI : Info) (obj : Variable)
    (name : String) : M Variable :=
  let options0 := propagate selfI [obj, .Constant (.strP name) ⟨∅, none⟩]
  let guards := options0.guards
  let src : Option Source := obj.source.map (fun s => .attrS s name)
  let options : Options :=
    ⟨options0.guards,
      match src with
      | some s => some s
      | none => options0.source⟩
  match obj with
  | .NNModule key i =>
    match env.getSubmodule key with
    | none => mraise (.attributeError "get_submodule")
    | some base =>
      if i.source = none then munimpl "GETATTR with no source"
      else
        match nnLookup base name with
        | some subobj => buildAdd env (src.map Source.nnModuleS) subobj guards
        | none =>
          match base.staticAttrs.lookup name with
          | none => mraise (.attributeError name)
          | some (.propM getter) => env.userFnCall getter guards obj
          | some (.classMethodM f) =>
            mret (Variable.UserMethod f
              (.UserObject (.userT base.typeName) ⟨guards, none⟩)
              ⟨options.guards, options.source⟩)
          | some (.staticMethodM f) =>
            mret (.UserFunction f ⟨options.guards, options.source⟩)
          | some (.functionM f) =>
            mret (.UserMethod f obj ⟨options.guards, options.source⟩)
          | some (.otherM d) =>
            munimpl ("class property " ++ base.typeName ++ " " ++ d)
  | .Tensor _ _ _ | .NamedTupleV _ _ _ | .Constant _ _ =>
    match env.varAttr obj name with
    | (Except.ok v, s) => (Except.ok ((v.cloneSource src).add_guards guards), s)
    | (Except.error (.notImplemented _), s) =>
      withLog s (mret (.GetAttrV obj name ⟨options.guards, options.source⟩))
    | (Except.error e, s) => (Except.error e, s)
  | .TorchV hv _ =>
    match env.hostGetattr hv name with
    | none => mraise (.attributeError name)
    | some member =>
      if env.isDisallowed member = false then
        mret (.TorchV member ⟨options.guards, options.source⟩)
      else
        match member with
        | .primH p => mret (.Constant p ⟨options.guards, options.source⟩)
        | _ => buildAdd env src member guards
  | .PyModule key _ =>
    match env.moduleDict key name with
    | none => mraise (.keyError name)
    | some member => buildAdd env src member guards
  | .UserObject _ _ =>
    env.callMethod obj "__getattr__" [.Constant (.strP name) ⟨∅, none⟩] []
  | .UserFunction f i =>
    if name = "__name__" || name = "__module__" then
      mret (.Constant (.strP (if name = "__name__" then f.name else f.module))
        ⟨(propagate i []).guards, (propagate i []).source⟩)
    else mret (.GetAttrV obj name ⟨options.guards, options.source⟩)
  | _ => mret (.GetAttrV obj name ⟨options.guards, options.source⟩)

/-- `BuiltinVariable.call_getattr`: bind the operands, require a constant
name and no default, then resolve per receiver variant. -/
def callGetattrH : HandlerFn := fun _ env selfI args kwargs =>
  let bound : Option (Variable × Variable × Option Variable) :=
    match args, kwargs with
    | [o, n], [] => some (o, n, none)
    | [o, n, d], [] => some (o, n, some d)
    | [o, n], [("default", d)] => some (o, n, some d)
    | _, _ => none
  match bound with
  | none => mraise (.typeError "positional argument mismatch")
  | some (obj, nameVar, dflt) =>
    if nameVar.is_python_constant = false then munimpl "non-const getattr name"
    else if dflt.isSome then munimpl "getattr with default"
    else
      match nameVar.as_python_constant with
      | some (.strP name) => mopt (callGetattrCore env selfI obj name)
      | _ => mraise (.typeError "attribute name must be string")

/-- `getattr(self, "call_" + fn.__name__, None)`: the handler table,
resolved by operation name. -/
def lookupHandler (fn : Fn) : Option HandlerFn :=
  match fn.pyName with
  | "min" => some (callMinMax false)
  | "max" => some (callMinMax true)
  | "list" => some (callIterTupleList true)
  | "tuple" => some (callIterTupleList false)
  | "mul" => some callMul
  | "len" => some (callMethodHandler "__len__")
  | "add" => some (callMethodHandler "__add__")
  | "iadd" => some (callMethodHandler "__iadd__")
  | "getitem" => some (callMethodHandler "__getitem__")
  | "isinstance" => some callIsinstance
  | "sum" => some callSum
  | "reduce" => some callReduce
  | "getattr" => some callGetattrH
  | _ => none

/-- Step 5 of the decision procedure: invoke the specialized handler if
one is registered.  `ok (some v)` is a handler result (with options
attached); `ok none` means "no handler" or "handler does not apply"; a
`TypeError` whose message mentions "argument" is absorbed, any other
`TypeError` becomes an internal assertion error; an `Unsupported` failure
is suppressed (and removed from the failure-rate statistics) exactly when
a constant fallback exists. -/
def handlerStep (rec : RecFn) (env : Env) (fn : Fn) (selfI : Info)
    (args : List Variable) (kwargs : KW) (hch : Bool) (options : Options) :
    M (Option Variable) :=
  match lookupHandler fn with
  | none => mret none
  | some h =>
    match h rec env selfI args kwargs with
    | (Except.ok (some r), s) => (Except.ok (some (r.add_options options)), s)
    | (Except.ok none, s) => (Except.ok none, s)
    | (Except.error (Exc.typeError m), s) =>
      if containsSub m "argument" then (Except.ok none, s)
      else (Except.error (.assertError m), s)
    | (Except.error (Exc.unsupported m), s) =>
      if hch then (Except.ok none, removeFromStats m s)
      else (Except.error (.unsupported m), s)
    | (Except.error e, s) => (Except.error e, s)

/-- The in-place-add rewrite: `iadd` with a constant first operand becomes
plain `add` with the first two operands swapped; out-of-range accesses
model the host `IndexError`. -/
def graphRewrite (fn : Fn) (args : List Variable) :
    Except Exc (Fn × List Variable) :=
  if fn = .iadd then
    match args with
    | [] => Except.error (.indexError "args[0]")
    | a0 :: rest =>
      if a0.isConstant then
        match rest with
        | a1 :: _ => Except.ok (.add, [a1, a0])
        | [] => Except.error (.indexError "args[1]")
      else Except.ok (fn, args)
  else Except.ok (fn, args)

/-- Step 4 of the decision procedure: apply the in-place-add rewrite,
proxy the operands and request insertion of a call node from the output
graph port, wrapping the returned node as a tensor with options attached;
a rejected insertion raises a graph break describing the attempted
operation. -/
def graphStep (env : Env) (fn : Fn) (args : List Variable) (kwargs : KW)
    (options : Options) : M Variable :=
  match graphRewrite fn args with
  | Except.error e => mraise e
  | Except.ok (fn2, args2) =>
    match proxyArgsKwargs args2 kwargs with
    | none => munimpl ("partial tensor op: " ++ fn.pyName)
    | some (pa, pk) =>
      match env.insertCall fn2 pa pk with
      | none => munimpl ("partial tensor op: " ++ fn.pyName)
      | some node => mret (.Tensor node none ⟨options.guards, options.source⟩)

/-- Step 6 of the decision procedure: evaluate the operation directly on
the unwrapped primitive payloads and wrap the result as a constant with
options attached. -/
def constantFold (fn : Fn) (args : List Variable) (kwargs : KW)
    (options : Options) : M Variable :=
  match mapOpt Variable.as_python_constant args with
  | none => mraise (.notImplemented "as_python_constant")
  | some ps =>
    match mapOpt (fun p =>
        (p.2.as_python_constant).map (fun v => (p.1, v))) kwargs with
    | none => mraise (.notImplemented "as_python_constant")
    | some kps =>
      match pyApply fn ps kps with
      | some r => mret (.Constant r ⟨options.guards, options.source⟩)
      | none => mraise (.typeError "unsupported operand")

/-- Modelled from the spec: the generic fallback of the base class
(`super().call_function`, outside the excerpt) is a full graph break
naming the operation. -/
def fallbackCall (fn : Fn) : M Variable :=
  munimpl ("call_function BuiltinVariable " ++ fn.pyName)

/-- `BuiltinVariable.call_function`: the operation-dispatch decision
procedure.  The first argument is recursion fuel for nested dispatches
(each re-entry from a handler consumes one unit). -/
def callFunction : Nat → Env → Fn → Info → List Variable → KW → M Variable
  | 0, _, _, _, _, _ => mraise .fuelOut
  | Nat.succ fuel, env, fn, selfI, args, kwargs =>
    let options := propagate selfI (args ++ kwargs.map Prod.snd)
    let hch := canConstantFold fn && checkConstantArgs args kwargs
    if canInsertInGraph fn && tensorArgs args kwargs then
      graphStep env fn args kwargs options
    else
      match handlerStep (fun e f i a k => callFunction fuel e f i a k)
          env fn selfI args kwargs hch options with
      | (Except.ok (some v), s) => (Except.ok v, s)
      | (Except.ok none, s) =>
        withLog s
          (if hch then constantFold fn args kwargs options else fallbackCall fn)
      | (Except.error e, s) => (Except.error e, s)

/-! ### Helper lemmas -/

theorem Variable.info_setInfo (v : Variable) (i : Info) : (v.setInfo i).info = i := by
  cases v <;> rfl

theorem Variable.guards_add_options (v : Variable) (o : Options) :
    (v.add_options o).guards = v.guards ∪ o.guards := by
  simp [Variable.add_options, Variable.guards, Variable.info_setInfo]

theorem foldl_union_init (l : List Variable) (g : Finset Nat) :
    g ⊆ l.foldl (fun acc v => acc ∪ v.guards) g := by
  induction l generalizing g with
  | nil => simp
  | cons v rest ih =>
    simp only [List.foldl_cons]
    exact Finset.subset_union_left.trans (ih _)

theorem foldl_union_mem (l : List Variable) (g : Finset Nat) :
    ∀ v ∈ l, v.guards ⊆ l.foldl (fun acc v => acc ∪ v.guards) g := by
  induction l generalizing g with
  | nil => simp
  | cons w rest ih =>
    intro v hv
    simp only [List.mem_cons] at hv
    simp only [List.foldl_cons]
    cases hv with
    | inl h => subst h; exact Finset.subset_union_right.trans (foldl_union_init _ _)
    | inr h => exact ih _ v h

theorem propagate_guards_init (selfI : Info) (ops : List Variable) :
    selfI.guards ⊆ (propagate selfI ops).guards :=
  foldl_union_init ops selfI.guards

theorem propagate_guards_mem (selfI : Info) (ops : List Variable) :
    ∀ v ∈ ops, v.guards ⊆ (propagate selfI ops).guards :=
  foldl_union_mem ops selfI.guards

theorem handlerStep_ok_some {rec : RecFn} {env : Env} {fn : Fn} {selfI : Info}
    {args : List Variable} {kwargs : KW} {hch : Bool} {options : Options}
    {v : Variable} {s : List String}
    (h : handlerStep rec env fn selfI args kwargs hch options =
      (Except.ok (some v), s)) :
    ∃ r : Variable, v = Variable.add_options r options := by
  unfold handlerStep at h
  split at h
  · exact absurd h (by simp [mret])
  · split at h
    · simp only [Prod.mk.injEq, Except.ok.injEq, Option.some.injEq] at h
      exact ⟨_, h.1.symm⟩
    · exact absurd h (by simp)
    · split at h
      · exact absurd h (by simp)
      · exact absurd h (by simp)
    · split at h
      · exact absurd h (by simp)
      · exact absurd h (by simp)
    · exact absurd h (by simp)

theorem graphStep_ok {env : Env} {fn : Fn} {args : List Variable} {kwargs : KW}
    {options : Options} {v : Variable}
    (h : (graphStep env fn args kwargs options).1 = Except.ok v) :
    v.guards = options.guards ∧ v.isTensor = true := by
  unfold graphStep at h
  split at h
  · exact absurd h (by simp [mraise])
  · split at h
    · exact absurd h (by simp [munimpl])
    · split at h
      · exact absurd h (by simp [munimpl])
      · simp only [mret, Except.ok.injEq] at h
        subst h
        exact ⟨rfl, rfl⟩

theorem constantFold_ok {fn : Fn} {args : List Variable} {kwargs : KW}
    {options : Options} {v : Variable}
    (h : (constantFold fn args kwargs options).1 = Except.ok v) :
    v.guards = options.guards := by
  unfold constantFold at h
  split at h
  · exact absurd h (by simp [mraise])
  · split at h
    · exact absurd h (by simp [mraise])
    · split at h
      · simp only [mret, Except.ok.injEq] at h
        subst h
        rfl
      · exact absurd h (by simp [mraise])

theorem fallback_not_ok {fn : Fn} {v : Variable}
    (h : (fallbackCall fn).1 = Except.ok v) : False := by
  unfold fallbackCall munimpl at h
  exact Except.noConfusion h

/-- C3: a dispatch that returns normally yields a value whose guard set
contains the guards of the operation value and of every positional and
keyword operand; when the operation is graph-insertable and a tensor
operand is present, the value is moreover a tensor handle. -/
theorem c3_guard_monotonicity (fuel : Nat) (env : Env) (fn : Fn)
    (selfI : Info) (args : List Variable) (kwargs : KW) (v : Variable)
    (s : List String)
    (h : callFunction fuel env fn selfI args kwargs = (Except.ok v, s)) :
    (selfI.guards ⊆ v.guards ∧
      (∀ a ∈ args, a.guards ⊆ v.guards) ∧
      (∀ p ∈ kwargs, p.2.guards ⊆ v.guards)) ∧
    ((canInsertInGraph fn && tensorArgs args kwargs) = true →
      v.isTensor = true) := by
  cases fuel with
  | zero => exact absurd h (by simp [callFunction, mraise])
  | succ fuel =>
    simp only [callFunction] at h
    have hsub : ∀ w : Variable,
        (propagate selfI (args ++ kwargs.map Prod.snd)).guards ⊆ w.guards →
        selfI.guards ⊆ w.guards ∧
          (∀ a ∈ args, a.guards ⊆ w.guards) ∧
          (∀ p ∈ kwargs, p.2.guards ⊆ w.guards) := by
      intro w hw
      refine ⟨(propagate_guards_init _ _).trans hw, fun a ha => ?_,
        fun p hp => ?_⟩
      · exact (propagate_guards_mem _ _ a
          (List.mem_append.mpr (Or.inl ha))).trans hw
      · exact (propagate_guards_mem _ _ p.2
          (List.mem_append.mpr (Or.inr
            (List.mem_map_of_mem Prod.snd hp)))).trans hw
    split at h
    · rename_i hcond
      have hg := graphStep_ok (show _ = Except.ok v from by rw [h])
      refine ⟨hsub v (by rw [hg.1]), fun _ => hg.2⟩
    · rename_i hcond
      split at h
      · rename_i v0 s0 heq
        simp only [Prod.mk.injEq, Except.ok.injEq] at h
        rcases h with ⟨h1, _⟩
        subst h1
        rcases handlerStep_ok_some heq with ⟨r, hr⟩
        subst hr
        refine ⟨hsub _ ?_, fun hc => absurd hc hcond⟩
        rw [Variable.guards_add_options]
        exact Finset.subset_union_right
      · rename_i s0 heq
        have h1 : ((if canConstantFold fn && checkConstantArgs args kwargs
            then constantFold fn args kwargs
              (propagate selfI (args ++ kwargs.map Prod.snd))
            else fallbackCall fn)).1 = Except.ok v := by
          have := congrArg Prod.fst h
          exact this
        split at h1
        · have hcf := constantFold_ok h1
          refine ⟨hsub v (by rw [hcf]), fun hc => absurd hc hcond⟩
        · exact absurd h1 (fun hh => fallback_not_ok hh)
      · rename_i e s0 heq
        exact absurd h (by simp)

/-! ### Concrete environments and values for witnesses -/

/-- A concrete environment: insertions succeed at node 99; method calls on
receivers raise an unsupported-construct failure (recording it). -/
def env0 : Env where
  insertCall := fun _ _ _ => some 99
  callMethod := fun _ _ _ _ => (Except.error (.unsupported "cm"), ["cm"])
  callVar := fun _ _ _ => mraise (.unsupported "cv")
  torchCall := fun _ _ _ => mraise (.unsupported "tc")
  getSubmodule := fun _ => none
  build := fun _ _ => mraise (.unsupported "bd")
  userFnCall := fun _ _ _ => mraise (.unsupported "uf")
  varAttr := fun _ _ => mraise (.notImplemented "va")
  hostGetattr := fun _ _ => none
  isDisallowed := fun _ => false
  moduleDict := fun _ _ => none

/-- An integer constant with empty metadata. -/
def cI (n : Int) : Variable := .Constant (.intP n) ⟨∅, none⟩

/-- An environment where the output graph port rejects every insertion
while the receivers' method-call capability succeeds (producing a tensor),
so a specialized handler strategy would apply. -/
def envH : Env :=
  { env0 with
    insertCall := fun _ _ _ => none,
    callMethod := fun _ _ _ _ => mret (.Tensor 42 none ⟨∅, none⟩) }

/-! ### C4: the in-place-add rewrite -/

/-- C4: dispatching `iadd` with a constant first operand and a tensor
second operand is rewritten to plain `add` with the operands swapped, so
(when the insertion is accepted) it produces the same tensor node as
dispatching `add` directly on the swapped operands. -/
theorem c4_iadd_rewrite (fuel : Nat) (env : Env) (selfI : Info) (p : Prim)
    (ic it : Info) (nd : Nat) (sz : Option (List Nat)) (n : Nat)
    (h : env.insertCall .add [.nodeP nd, .constP p] [] = some n) :
    callFunction (fuel + 1) env .iadd selfI
        [.Constant p ic, .Tensor nd sz it] [] =
      callFunction (fuel + 1) env .add selfI
        [.Tensor nd sz it, .Constant p ic] [] := by
  show graphStep env .iadd [.Constant p ic, .Tensor nd sz it] []
      (propagate selfI ([.Constant p ic, .Tensor nd sz it] ++ [])) =
    graphStep env .add [.Tensor nd sz it, .Constant p ic] []
      (propagate selfI ([.Tensor nd sz it, .Constant p ic] ++ []))
  unfold graphStep
  rw [show graphRewrite Fn.iadd [.Constant p ic, .Tensor nd sz it] =
    Except.ok (Fn.add, [.Tensor nd sz it, .Constant p ic]) from rfl]
  rw [show graphRewrite Fn.add [.Tensor nd sz it, .Constant p ic] =
    Except.ok (Fn.add, [.Tensor nd sz it, .Constant p ic]) from rfl]
  dsimp only
  rw [show proxyArgsKwargs [.Tensor nd sz it, .Constant p ic] [] =
    some ([.nodeP nd, .constP p], []) from rfl]
  dsimp only
  rw [h]
  dsimp only [propagate, Variable.guards, Variable.info, List.append_nil,
    List.foldl]
  rw [Finset.union_right_comm]

/-- Witness for C4 at concrete operands. -/
theorem c4_iadd_rewrite_witness :
    callFunction 1 env0 .iadd ⟨∅, none⟩
        [.Constant (.intP 1) ⟨∅, none⟩, .Tensor 7 none ⟨∅, none⟩] [] =
      callFunction 1 env0 .add ⟨∅, none⟩
        [.Tensor 7 none ⟨∅, none⟩, .Constant (.intP 1) ⟨∅, none⟩] [] :=
  c4_iadd_rewrite 0 env0 ⟨∅, none⟩ (.intP 1) ⟨∅, none⟩ ⟨∅, none⟩ 7 none 99 rfl

/-! ### C8: getattr preconditions -/

/-- C8: `call_getattr` requires a constant name and no default: a
non-constant name operand triggers a graph break (with or without a
default), and a supplied default operand (positional or keyword) triggers
a graph break, for every receiver. -/
theorem c8_getattr_preconditions (rec : RecFn) (env : Env) (selfI : Info)
    (obj nv d : Variable) :
    (nv.is_python_constant = false →
      callGetattrH rec env selfI [obj, nv] [] =
        (Except.error (.unsupported "non-const getattr name"),
          ["non-const getattr name"]) ∧
      callGetattrH rec env selfI [obj, nv, d] [] =
        (Except.error (.unsupported "non-const getattr name"),
          ["non-const getattr name"])) ∧
    (nv.is_python_constant = true →
      callGetattrH rec env selfI [obj, nv, d] [] =
        (Except.error (.unsupported "getattr with default"),
          ["getattr with default"]) ∧
      callGetattrH rec env selfI [obj, nv] [("default", d)] =
        (Except.error (.unsupported "getattr with default"),
          ["getattr with default"])) := by
  constructor
  · intro hn
    unfold callGetattrH
    simp [hn, munimpl]
  · intro hn
    unfold callGetattrH
    simp [hn, munimpl]

/-- Witness for C8: a tensor-valued name is not constant; a constant name
with a default still breaks. -/
theorem c8_getattr_preconditions_witness :
    callGetattrH (fun e f i a k => callFunction 0 e f i a k) env0 ⟨∅, none⟩
        [.NNModule 0 ⟨∅, none⟩, .Tensor 3 none ⟨∅, none⟩] [] =
      (Except.error (.unsupported "non-const getattr name"),
        ["non-const getattr name"]) ∧
    callGetattrH (fun e f i a k => callFunction 0 e f i a k) env0 ⟨∅, none⟩
        [.NNModule 0 ⟨∅, none⟩, .Constant (.strP "w") ⟨∅, none⟩, cI 0] [] =
      (Except.error (.unsupported "getattr with default"),
        ["getattr with default"]) :=
  ⟨((c8_getattr_preconditions _ env0 ⟨∅, none⟩ (.NNModule 0 ⟨∅, none⟩)
      (.Tensor 3 none ⟨∅, none⟩) (cI 0)).1 rfl).1,
    ((c8_getattr_preconditions _ env0 ⟨∅, none⟩ (.NNModule 0 ⟨∅, none⟩)
      (.Constant (.strP "w") ⟨∅, none⟩) (cI 0)).2 rfl).1⟩

/-! ### C2: rejected graph insertion -/

/-- C2 (as stated) is false: with a rejected insertion the dispatcher
raises the graph-break failure immediately, even though the specialized
handler for the same operation and operands would have produced a value
(second conjunct). -/
theorem c2_fallthrough_counterexample :
    callFunction 5 envH .add ⟨∅, none⟩
        [.Tensor 7 none ⟨∅, none⟩, .Constant (.intP 1) ⟨∅, none⟩] [] =
      (Except.error (.unsupported "partial tensor op: add"),
        ["partial tensor op: add"]) ∧
    handlerStep (fun e f i a k => callFunction 4 e f i a k) envH .add
        ⟨∅, none⟩ [.Tensor 7 none ⟨∅, none⟩, .Constant (.intP 1) ⟨∅, none⟩]
        []
        (canConstantFold .add && checkConstantArgs
          [.Tensor 7 none ⟨∅, none⟩, .Constant (.intP 1) ⟨∅, none⟩] [])
        (propagate ⟨∅, none⟩
          [.Tensor 7 none ⟨∅, none⟩, .Constant (.intP 1) ⟨∅, none⟩]) =
      (Except.ok (some ((Variable.Tensor 42 none ⟨∅, none⟩).add_options
        (propagate ⟨∅, none⟩
          [.Tensor 7 none ⟨∅, none⟩, .Constant (.intP 1) ⟨∅, none⟩]))),
        []) :=
  ⟨rfl, rfl⟩

/-- C2 (amended): when the operation is graph-insertable, a tensor operand
is present, and the insertion request is rejected, the dispatcher raises a
graph-break failure describing the attempted operation immediately,
without consulting the specialized handler or the constant-fold step. -/
theorem c2_rejected_insertion_raises (fuel : Nat) (env : Env) (fn : Fn)
    (selfI : Info) (args : List Variable) (kwargs : KW) (fn2 : Fn)
    (args2 : List Variable) (pa : List PArg) (pk : List (String × PArg))
    (hg : canInsertInGraph fn = true)
    (ht : tensorArgs args kwargs = true)
    (hr : graphRewrite fn args = Except.ok (fn2, args2))
    (hp : proxyArgsKwargs args2 kwargs = some (pa, pk))
    (hi : env.insertCall fn2 pa pk = none) :
    callFunction (fuel + 1) env fn selfI args kwargs =
      (Except.error (.unsupported ("partial tensor op: " ++ fn.pyName)),
        ["partial tensor op: " ++ fn.pyName]) := by
  simp only [callFunction, graphStep, hg, ht, hr, hp, hi, Bool.and_self,
    if_true, munimpl]

/-- Witness for C2 (amended) at a concrete rejected insertion. -/
theorem c2_rejected_insertion_raises_witness :
    callFunction 5 envH .sub ⟨∅, none⟩
        [.Tensor 7 none ⟨∅, none⟩, .Constant (.intP 1) ⟨∅, none⟩] [] =
      (Except.error (.unsupported "partial tensor op: sub"),
        ["partial tensor op: sub"]) :=
  c2_rejected_insertion_raises 4 envH .sub ⟨∅, none⟩ _ _ .sub _
    [.nodeP 7, .constP (.intP 1)] [] rfl rfl rfl rfl rfl

/-! ### C9: isinstance -/

/-- C9: with a defined receiver type and a constant type operand, the
isinstance dispatch always returns a constant boolean: the subclass test
when it applies, the identity comparison when the subclass test signals a
type incompatibility — never an error. -/
theorem c9_isinstance_total (fuel : Nat) (env : Env) (selfI : Info)
    (a tv : Variable) (t : HType) (p : Prim)
    (h1 : a.python_type = some t)
    (h2 : tv.as_python_constant = some p) :
    ∃ i : Info, callFunction (fuel + 1) env .isinstanceF selfI [a, tv] [] =
      (Except.ok (.Constant (.boolP (match issubCheck t p with
        | some b => b
        | none => decide (Prim.pytype t = p))) i), []) := by
  refine ⟨⟨∅ ∪ (propagate selfI ([a, tv] ++ [])).guards,
    (propagate selfI ([a, tv] ++ [])).source⟩, ?_⟩
  simp only [callFunction, handlerStep, lookupHandler, callIsinstance,
    Fn.pyName, h1, h2,
    show canInsertInGraph .isinstanceF = false from rfl, Bool.false_and,
    if_false, mret, Variable.add_options, Variable.setInfo, Variable.info,
    reduceIte]
  rfl

/-- Witness for C9: a string constant against the string type (subclass
test applies, true), and an integer constant against a non-type constant
(type-incompatibility, identity fallback, false — no error raised). -/
theorem c9_isinstance_total_witness :
    (∃ i : Info, callFunction 1 env0 .isinstanceF ⟨∅, none⟩
        [.Constant (.strP "x") ⟨∅, none⟩,
          .Constant (.pytype .strT) ⟨∅, none⟩] [] =
      (Except.ok (.Constant (.boolP true) i), [])) ∧
    (∃ i : Info, callFunction 1 env0 .isinstanceF ⟨∅, none⟩
        [.Constant (.intP 1) ⟨∅, none⟩, .Constant (.intP 5) ⟨∅, none⟩] [] =
      (Except.ok (.Constant (.boolP false) i), [])) :=
  ⟨c9_isinstance_total 0 env0 ⟨∅, none⟩ _ _ .strT (.pytype .strT) rfl rfl,
    c9_isinstance_total 0 env0 ⟨∅, none⟩ _ _ .intT (.intP 5) rfl rfl⟩

/-! ### C1: constant folding -/

theorem const_check (args : List Variable) (kwargs : KW)
    (hargs : args.all Variable.isConstant = true)
    (hkw : kwargs.all (fun p => p.2.isConstant) = true) :
    checkConstantArgs args kwargs = true := by
  unfold checkConstantArgs
  simp only [List.all_eq_true, Bool.and_eq_true] at hargs hkw ⊢
  constructor
  · intro a ha
    have := hargs a ha
    cases a <;> simp_all [Variable.isConstant, Variable.is_python_constant]
  · intro p hp
    have := hkw p hp
    rcases p with ⟨k, v⟩
    cases v <;> simp_all [Variable.isConstant, Variable.is_python_constant]

theorem const_no_tensor (args : List Variable) (kwargs : KW)
    (hargs : args.all Variable.isConstant = true)
    (hkw : kwargs.all (fun p => p.2.isConstant) = true) :
    tensorArgs args kwargs = false := by
  unfold tensorArgs
  simp only [List.all_eq_true] at hargs hkw
  simp only [Bool.or_eq_false_iff, List.any_eq_false]
  constructor
  · intro a ha
    have := hargs a ha
    cases a <;> simp_all [Variable.isConstant, Variable.isTensor]
  · intro p hp
    have := hkw p hp
    rcases p with ⟨k, v⟩
    cases v <;> simp_all [Variable.isConstant, Variable.isTensor]

/-- C1: a constant-foldable operation over all-constant operands, when no
specialized handler produces a result first, dispatches to the
constant-fold step: the result is a constant wrapping the direct host
evaluation of the operation on the unwrapped payloads, with the merged
options attached. -/
theorem c1_constant_fold_dispatch (fuel : Nat) (env : Env) (fn : Fn)
    (selfI : Info) (args : List Variable) (kwargs : KW) (s : List String)
    (ps : List Prim) (kps : List (String × Prim)) (r : Prim)
    (hf : canConstantFold fn = true)
    (hargs : args.all Variable.isConstant = true)
    (hkw : kwargs.all (fun p => p.2.isConstant) = true)
    (hh : handlerStep (fun e f i a k => callFunction fuel e f i a k) env fn
      selfI args kwargs
      (canConstantFold fn && checkConstantArgs args kwargs)
      (propagate selfI (args ++ kwargs.map Prod.snd)) = (Except.ok none, s))
    (hps : mapOpt Variable.as_python_constant args = some ps)
    (hkps : mapOpt (fun p =>
      (p.2.as_python_constant).map (fun v => (p.1, v))) kwargs = some kps)
    (hr : pyApply fn ps kps = some r) :
    callFunction (fuel + 1) env fn selfI args kwargs =
      (Except.ok (.Constant r
        ⟨(propagate selfI (args ++ kwargs.map Prod.snd)).guards,
         (propagate selfI (args ++ kwargs.map Prod.snd)).source⟩), s) := by
  have htf := const_no_tensor args kwargs hargs hkw
  have hcc := const_check args kwargs hargs hkw
  simp only [callFunction, htf, Bool.and_false, Bool.false_eq_true,
    if_false, reduceIte]
  rw [hh]
  dsimp only
  rw [hf, hcc]
  simp only [Bool.and_self, if_true, reduceIte]
  unfold constantFold
  rw [hps]
  dsimp only
  rw [hkps]
  dsimp only
  rw [hr]
  dsimp only [withLog, mret]
  rw [List.append_nil]

/-- Witness for C1: `dispatch(add, [Constant(2), Constant(3)], {})` yields
`Constant(5)`. -/
theorem c1_constant_fold_dispatch_witness :
    callFunction 1 env0 .add ⟨∅, none⟩ [cI 2, cI 3] [] =
      (Except.ok (.Constant (.intP 5)
        ⟨(propagate ⟨∅, none⟩ ([cI 2, cI 3] ++ ([] : KW).map Prod.snd)).guards,
         (propagate ⟨∅, none⟩
           ([cI 2, cI 3] ++ ([] : KW).map Prod.snd)).source⟩), []) :=
  c1_constant_fold_dispatch 0 env0 .add ⟨∅, none⟩ [cI 2, cI 3] [] []
    [.intP 2, .intP 3] [] (.intP 5) rfl rfl rfl rfl rfl rfl rfl

/-! ### C5 and C10: handler failure policies -/

/-- C5: when the specialized handler raises an unsupported-construct
failure, the dispatcher propagates it to the caller if no constant
fallback exists, and otherwise suppresses it, removes the occurrence from
the failure-rate statistics, and proceeds to the constant-fold step. -/
theorem c5_unsupported_propagation (fuel : Nat) (env : Env) (fn : Fn)
    (selfI : Info) (args : List Variable) (kwargs : KW) (hd : HandlerFn)
    (m : String) (s : List String)
    (hl : lookupHandler fn = some hd)
    (hh : hd (fun e f i a k => callFunction fuel e f i a k) env selfI args
      kwargs = (Except.error (.unsupported m), s))
    (hg : (canInsertInGraph fn && tensorArgs args kwargs) = false) :
    ((canConstantFold fn && checkConstantArgs args kwargs) = false →
      callFunction (fuel + 1) env fn selfI args kwargs =
        (Except.error (.unsupported m), s)) ∧
    ((canConstantFold fn && checkConstantArgs args kwargs) = true →
      callFunction (fuel + 1) env fn selfI args kwargs =
        withLog (removeFromStats m s)
          (constantFold fn args kwargs
            (propagate selfI (args ++ kwargs.map Prod.snd)))) := by
  have hstep : handlerStep (fun e f i a k => callFunction fuel e f i a k)
      env fn selfI args kwargs
      (canConstantFold fn && checkConstantArgs args kwargs)
      (propagate selfI (args ++ kwargs.map Prod.snd)) =
      if (canConstantFold fn && checkConstantArgs args kwargs) = true
      then (Except.ok none, removeFromStats m s)
      else (Except.error (.unsupported m), s) := by
    unfold handlerStep
    rw [hl]
    dsimp only
    rw [hh]
  constructor
  · intro hc
    simp only [callFunction, hg, Bool.false_eq_true, if_false, reduceIte]
    rw [hstep, hc]
    rfl
  · intro hc
    simp only [callFunction, hg, Bool.false_eq_true, if_false, reduceIte]
    rw [hstep, hc]
    rfl

/-- Witness for C5 (the suppression half): `len` of a constant string,
whose handler raises an unsupported failure, folds to `Constant(2)` with
the failure excluded from the statistics. -/
theorem c5_unsupported_propagation_witness :
    callFunction 1 env0 .lenF ⟨∅, none⟩
        [.Constant (.strP "ab") ⟨∅, none⟩] [] =
      withLog (removeFromStats "cm" ["cm"])
        (constantFold .lenF [.Constant (.strP "ab") ⟨∅, none⟩] []
          (propagate ⟨∅, none⟩
            ([.Constant (.strP "ab") ⟨∅, none⟩] ++ ([] : KW).map Prod.snd))) ∧
    callFunction 1 env0 .lenF ⟨∅, none⟩
        [.Constant (.strP "ab") ⟨∅, none⟩] [] =
      (Except.ok (.Constant (.intP 2) ⟨∅, none⟩), []) :=
  ⟨(c5_unsupported_propagation 0 env0 .lenF ⟨∅, none⟩
      [.Constant (.strP "ab") ⟨∅, none⟩] [] (callMethodHandler "__len__")
      "cm" ["cm"] rfl rfl rfl).2 rfl, rfl⟩

/-- C10: a `TypeError` raised by the specialized handler is absorbed as
"handler does not apply" exactly when its message contains the substring
"argument"; otherwise dispatch stops with an internal assertion error
carrying the exception text, never reaching the constant-fold or fallback
step. -/
theorem c10_typeerror_assert (fuel : Nat) (env : Env) (fn : Fn)
    (selfI : Info) (args : List Variable) (kwargs : KW) (hd : HandlerFn)
    (m : String) (s : List String)
    (hl : lookupHandler fn = some hd)
    (hh : hd (fun e f i a k => callFunction fuel e f i a k) env selfI args
      kwargs = (Except.error (.typeError m), s))
    (hg : (canInsertInGraph fn && tensorArgs args kwargs) = false) :
    (containsSub m "argument" = false →
      callFunction (fuel + 1) env fn selfI args kwargs =
        (Except.error (.assertError m), s)) ∧
    (containsSub m "argument" = true →
      callFunction (fuel + 1) env fn selfI args kwargs =
        withLog s
          (if (canConstantFold fn && checkConstantArgs args kwargs) = true
           then constantFold fn args kwargs
             (propagate selfI (args ++ kwargs.map Prod.snd))
           else fallbackCall fn)) := by
  have hstep : handlerStep (fun e f i a k => callFunction fuel e f i a k)
      env fn selfI args kwargs
      (canConstantFold fn && checkConstantArgs args kwargs)
      (propagate selfI (args ++ kwargs.map Prod.snd)) =
      if containsSub m "argument" = true
      then (Except.ok none, s)
      else (Except.error (.assertError m), s) := by
    unfold handlerStep
    rw [hl]
    dsimp only
    rw [hh]
  constructor
  · intro hc
    simp only [callFunction, hg, Bool.false_eq_true, if_false, reduceIte]
    rw [hstep, hc]
    rfl
  · intro hc
    simp only [callFunction, hg, Bool.false_eq_true, if_false, reduceIte]
    rw [hstep, hc]
    rfl

/-- Witness for C10: a non-"argument" `TypeError` (a non-integer `start`
passed to `sum`) becomes an assertion error; an "argument"-mentioning
`TypeError` (wrong arity for `min`) is absorbed and dispatch proceeds. -/
theorem c10_typeerror_assert_witness :
    callFunction 1 env0 .sumF ⟨∅, none⟩ [.TupleV [] false ⟨∅, none⟩]
        [("start", .Constant (.strP "x") ⟨∅, none⟩)] =
      (Except.error (.assertError "slice indices must be integers"), []) ∧
    callFunction 1 env0 .minF ⟨∅, none⟩ [cI 1] [] =
      withLog []
        (if (canConstantFold .minF && checkConstantArgs [cI 1] []) = true
         then constantFold .minF [cI 1] []
           (propagate ⟨∅, none⟩ ([cI 1] ++ ([] : KW).map Prod.snd))
         else fallbackCall .minF) :=
  ⟨(c10_typeerror_assert 0 env0 .sumF ⟨∅, none⟩ [.TupleV [] false ⟨∅, none⟩]
      [("start", .Constant (.strP "x") ⟨∅, none⟩)] callSum
      "slice indices must be integers" [] rfl rfl rfl).1 rfl,
    (c10_typeerror_assert 0 env0 .minF ⟨∅, none⟩ [cI 1] []
      (callMinMax false) "positional argument mismatch" [] rfl rfl rfl).2
      rfl⟩

/-- Witness for C3: a dispatch result that carries an operand's guard. -/
theorem c3_guard_monotonicity_witness :
    callFunction 1 env0 .add ⟨∅, none⟩
        [.Constant (.intP 2) ⟨{1}, none⟩, cI 3] [] =
      (Except.ok (.Constant (.intP 5) ⟨∅ ∪ {1} ∪ ∅, none⟩), []) ∧
    ({1} : Finset Nat) ⊆
      (Variable.Constant (.intP 5) ⟨∅ ∪ {1} ∪ ∅, none⟩).guards := by
  have hh : callFunction 1 env0 .add ⟨∅, none⟩
      [.Constant (.intP 2) ⟨{1}, none⟩, cI 3] [] =
      (Except.ok (.Constant (.intP 5) ⟨∅ ∪ {1} ∪ ∅, none⟩), []) := rfl
  refine ⟨hh, ?_⟩
  exact (c3_guard_monotonicity 1 env0 .add ⟨∅, none⟩ _ [] _ _ hh).1.2.1
    (.Constant (.intP 2) ⟨{1}, none⟩) (by simp)

/-! ### C6: sum slicing semantics -/

/-- The integer payloads of a list of integer constants. -/
def constIntVals : List Variable → Option (List Int) :=
  mapOpt (fun v =>
    match v with
    | .Constant (.intP n) _ => some n
    | _ => none)

theorem constIntVals_cons {v : Variable} {rest : List Variable}
    {ms : List Int} (h : constIntVals (v :: rest) = some ms) :
    ∃ n j ms2, v = .Constant (.intP n) j ∧
      constIntVals rest = some ms2 ∧ ms = n :: ms2 := by
  cases v with
  | Constant p j =>
    cases p with
    | intP n =>
      simp only [constIntVals, mapOpt] at h
      rcases hr : mapOpt (fun v =>
          match v with
          | .Constant (.intP n) _ => some n
          | _ => none) rest with _ | ms2
      · rw [hr] at h; simp at h
      · rw [hr] at h
        simp only [Option.map_some', Option.some.injEq] at h
        exact ⟨n, j, ms2, rfl, hr, h.symm⟩
    | noneP => simp [constIntVals, mapOpt] at h
    | boolP b => simp [constIntVals, mapOpt] at h
    | strP s => simp [constIntVals, mapOpt] at h
    | pytype t => simp [constIntVals, mapOpt] at h
    | fnVal f => simp [constIntVals, mapOpt] at h
  | Tensor n sz j => simp [constIntVals, mapOpt] at h
  | ListV xs m j => simp [constIntVals, mapOpt] at h
  | TupleV xs m j => simp [constIntVals, mapOpt] at h
  | NamedTupleV xs fs j => simp [constIntVals, mapOpt] at h
  | NNModule k j => simp [constIntVals, mapOpt] at h
  | TorchV t j => simp [constIntVals, mapOpt] at h
  | PyModule k j => simp [constIntVals, mapOpt] at h
  | UserObject t j => simp [constIntVals, mapOpt] at h
  | UserFunction f j => simp [constIntVals, mapOpt] at h
  | UserMethod f r j => simp [constIntVals, mapOpt] at h
  | Builtin f j => simp [constIntVals, mapOpt] at h
  | GetAttrV o nm j => simp [constIntVals, mapOpt] at h

theorem constIntVals_length {l : List Variable} {ms : List Int}
    (h : constIntVals l = some ms) : l.length = ms.length := by
  induction l generalizing ms with
  | nil =>
    simp only [constIntVals, mapOpt, Option.some.injEq] at h
    subst h
    rfl
  | cons v rest ih =>
    rcases constIntVals_cons h with ⟨n, j, ms2, hv, hrest, hms⟩
    subst hms
    simp [ih hrest]

theorem constIntVals_drop {l : List Variable} {ms : List Int}
    (h : constIntVals l = some ms) (j : Nat) :
    constIntVals (l.drop j) = some (ms.drop j) := by
  induction j generalizing l ms with
  | zero => exact h
  | succ j ih =>
    cases l with
    | nil =>
      simp only [constIntVals, mapOpt, Option.some.injEq] at h
      subst h
      simp [constIntVals, mapOpt]
    | cons v rest =>
      rcases constIntVals_cons h with ⟨n, jv, ms2, hv, hrest, hms⟩
      subst hms
      simpa using ih hrest

theorem add_options_Constant (p : Prim) (i : Info) (o : Options) :
    (Variable.Constant p i).add_options o =
      .Constant p ⟨i.guards ∪ o.guards,
        match i.source with
        | some s => some s
        | none => o.source⟩ := rfl

theorem add_const_dispatch (fuel : Nat) (env : Env) (gi : Info)
    (a b : Int) (ia ib : Info) (m : String)
    (hadd : ∀ (p : Prim) (j : Info) (args2 : List Variable) (kw2 : KW),
      env.callMethod (.Constant p j) "__add__" args2 kw2 =
        (Except.error (.unsupported m), [m])) :
    callFunction (fuel + 1) env .add gi
        [.Constant (.intP a) ia, .Constant (.intP b) ib] [] =
      (Except.ok (.Constant (.intP (a + b))
        ⟨gi.guards ∪ ia.guards ∪ ib.guards, gi.source⟩), []) := by
  have h1 := hadd (.intP a) ia [.Constant (.intP b) ib] []
  simp only [callFunction, handlerStep, lookupHandler, Fn.pyName,
    callMethodHandler, mopt, h1, Except.map,
    show tensorArgs [Variable.Constant (.intP a) ia,
      .Constant (.intP b) ib] [] = false from rfl,
    show canConstantFold Fn.add = true from rfl,
    show checkConstantArgs [Variable.Constant (.intP a) ia,
      .Constant (.intP b) ib] [] = true from rfl,
    Bool.and_false, Bool.and_self, Bool.false_eq_true, if_false, reduceIte,
    removeFromStats, List.erase_cons_head]
  rfl

/-- The one-step unfolding of the dispatcher at positive fuel. -/
theorem callFunction_succ (fuel : Nat) (env : Env) (fn : Fn) (selfI : Info)
    (args : List Variable) (kwargs : KW) :
    callFunction (fuel + 1) env fn selfI args kwargs =
      (if (canInsertInGraph fn && tensorArgs args kwargs) = true then
        graphStep env fn args kwargs
          (propagate selfI (args ++ kwargs.map Prod.snd))
      else
        match handlerStep (fun e f i a k => callFunction fuel e f i a k)
            env fn selfI args kwargs
            (canConstantFold fn && checkConstantArgs args kwargs)
            (propagate selfI (args ++ kwargs.map Prod.snd)) with
        | (Except.ok (some v), s) => (Except.ok v, s)
        | (Except.ok none, s) =>
          withLog s
            (if (canConstantFold fn && checkConstantArgs args kwargs) = true
             then constantFold fn args kwargs
               (propagate selfI (args ++ kwargs.map Prod.snd))
             else fallbackCall fn)
        | (Except.error e, s) => (Except.error e, s)) := rfl

theorem reduceLoop_add (fuel : Nat) (env : Env) (m : String)
    (hadd : ∀ (p : Prim) (j : Info) (args2 : List Variable) (kw2 : KW),
      env.callMethod (.Constant p j) "__add__" args2 kw2 =
        (Except.error (.unsupported m), [m])) :
    ∀ (items : List Variable) (ms : List Int) (a : Int) (ia : Info),
      constIntVals items = some ms →
      ∃ i : Info,
        reduceLoop
          (varCallFunction
            (fun e f i2 a2 k2 => callFunction (fuel + 1) e f i2 a2 k2) env
            (.Builtin .add ⟨∅, none⟩))
          (.Constant (.intP a) ia) items =
        (Except.ok (.Constant (.intP (ms.foldl (fun x y => x + y) a)) i),
          []) := by
  intro items
  induction items with
  | nil =>
    intro ms a ia hm
    simp only [constIntVals, mapOpt, Option.some.injEq] at hm
    subst hm
    exact ⟨ia, rfl⟩
  | cons v rest ih =>
    intro ms a ia hm
    rcases constIntVals_cons hm with ⟨n, jv, ms2, hv, hrest, hms⟩
    subst hv
    subst hms
    have hcall : varCallFunction
        (fun e f i2 a2 k2 => callFunction (fuel + 1) e f i2 a2 k2) env
        (.Builtin .add ⟨∅, none⟩)
        [.Constant (.intP a) ia, .Constant (.intP n) jv] [] =
        (Except.ok (.Constant (.intP (a + n))
          ⟨∅ ∪ ia.guards ∪ jv.guards, none⟩), []) := by
      show callFunction (fuel + 1) env .add ⟨∅, none⟩
        [.Constant (.intP a) ia, .Constant (.intP n) jv] [] = _
      exact add_const_dispatch fuel env ⟨∅, none⟩ a n ia jv m hadd
    obtain ⟨i2, hrec⟩ :=
      ih ms2 (a + n) ⟨∅ ∪ ia.guards ∪ jv.guards, none⟩ hrest
    refine ⟨i2, ?_⟩
    simp only [reduceLoop, hcall]
    rw [hrec]
    rfl

theorem reduce_add_dispatch (fuel : Nat) (env : Env) (m : String)
    (hadd : ∀ (p : Prim) (j : Info) (args2 : List Variable) (kw2 : KW),
      env.callMethod (.Constant p j) "__add__" args2 kw2 =
        (Except.error (.unsupported m), [m]))
    (items : List Variable) (ms : List Int) (a : Int) (g0 : Info)
    (hm : constIntVals items = some ms) :
    ∃ i : Info, callFunction (fuel + 2) env .reduceF ⟨∅, none⟩
        [.Builtin .add ⟨∅, none⟩, .TupleV items false ⟨∅, none⟩,
          .Constant (.intP a) g0] [] =
      (Except.ok (.Constant (.intP (ms.foldl (fun x y => x + y) a)) i),
        []) := by
  obtain ⟨i1, hloop⟩ := reduceLoop_add fuel env m hadd items ms a g0 hm
  have hcr : callReduce
      (fun e f i2 a2 k2 => callFunction (fuel + 1) e f i2 a2 k2) env ⟨∅, none⟩
      [.Builtin .add ⟨∅, none⟩, .TupleV items false ⟨∅, none⟩,
        .Constant (.intP a) g0] [] =
      (Except.ok (some (.Constant
        (.intP (ms.foldl (fun x y => x + y) a)) i1)), []) := by
    show mopt (reduceLoop
      (varCallFunction
        (fun e f i2 a2 k2 => callFunction (fuel + 1) e f i2 a2 k2) env
        (.Builtin .add ⟨∅, none⟩))
      (.Constant (.intP a) g0) items) = _
    rw [hloop]
    rfl
  have hhs : handlerStep
      (fun e f i a k => callFunction (fuel + 1) e f i a k) env Fn.reduceF
      ⟨∅, none⟩
      [.Builtin .add ⟨∅, none⟩, .TupleV items false ⟨∅, none⟩,
        .Constant (.intP a) g0] []
      (canConstantFold Fn.reduceF && checkConstantArgs
        [.Builtin .add ⟨∅, none⟩, .TupleV items false ⟨∅, none⟩,
          .Constant (.intP a) g0] [])
      (propagate ⟨∅, none⟩
        ([Variable.Builtin .add ⟨∅, none⟩, .TupleV items false ⟨∅, none⟩,
          .Constant (.intP a) g0] ++ List.map Prod.snd ([] : KW))) =
      (Except.ok (some ((Variable.Constant
          (.intP (ms.foldl (fun x y => x + y) a)) i1).add_options
        (propagate ⟨∅, none⟩
          ([Variable.Builtin .add ⟨∅, none⟩, .TupleV items false ⟨∅, none⟩,
            .Constant (.intP a) g0] ++ List.map Prod.snd ([] : KW))))), []) := by
    unfold handlerStep
    rw [show lookupHandler Fn.reduceF = some callReduce from rfl]
    dsimp only
    rw [hcr]
  refine ⟨⟨i1.guards ∪ (propagate ⟨∅, none⟩
      ([Variable.Builtin .add ⟨∅, none⟩, .TupleV items false ⟨∅, none⟩,
        .Constant (.intP a) g0] ++ List.map Prod.snd ([] : KW))).guards,
    match i1.source with
    | some s => some s
    | none => (propagate ⟨∅, none⟩
        ([Variable.Builtin .add ⟨∅, none⟩, .TupleV items false ⟨∅, none⟩,
          .Constant (.intP a) g0] ++
            List.map Prod.snd ([] : KW))).source⟩, ?_⟩
  rw [callFunction_succ]
  rw [show (canInsertInGraph Fn.reduceF && tensorArgs
    [Variable.Builtin .add ⟨∅, none⟩, .TupleV items false ⟨∅, none⟩,
      .Constant (.intP a) g0] []) = false from rfl]
  simp only [Bool.false_eq_true, if_false, reduceIte]
  rw [hhs]
  rw [add_options_Constant]

/-- C6: `sum` over a sequence of integer constants uses the optional
constant `start` (default 0, obtained by popping the keyword) as a slice
index into the unpacked sequence, and reduces the slice through `add` from
a fresh zero seed: the payload of the result is the sum of the elements
from index `start` on, not `start` plus the sum. -/
theorem c6_sum_slice_semantics (fuel : Nat) (env : Env) (selfI : Info)
    (elems : List Variable) (mt : Bool) (si : Info) (ns : List Int)
    (kwargs : KW) (k : Int) (ik : Info) (m : String)
    (hadd : ∀ (p : Prim) (j : Info) (args2 : List Variable) (kw2 : KW),
      env.callMethod (.Constant p j) "__add__" args2 kw2 =
        (Except.error (.unsupported m), [m]))
    (helems : constIntVals elems = some ns)
    (hpop : popKw "start" (.Constant (.intP 0) ⟨∅, none⟩) kwargs =
      (.Constant (.intP k) ik, [])) :
    ∃ i : Info, callFunction (fuel + 3) env .sumF selfI
        [.TupleV elems mt si] kwargs =
      (Except.ok (.Constant
        (.intP ((pySliceFrom ns k).foldl (fun x y => x + y) 0)) i), []) := by
  have hlen := constIntVals_length helems
  have hslice : constIntVals (pySliceFrom elems k) =
      some (pySliceFrom ns k) := by
    unfold pySliceFrom
    rw [hlen]
    exact constIntVals_drop helems _
  obtain ⟨i1, hred⟩ := reduce_add_dispatch fuel env m hadd
    (pySliceFrom elems k) (pySliceFrom ns k) 0
    ⟨∅ ∪ (propagate selfI [Variable.TupleV elems mt si]).guards,
      (propagate selfI [Variable.TupleV elems mt si]).source⟩ hslice
  have hcs : callSum
      (fun e f i2 a2 k2 => callFunction (fuel + 2) e f i2 a2 k2) env selfI
      [.TupleV elems mt si] kwargs =
      (Except.ok (some (.Constant
        (.intP ((pySliceFrom ns k).foldl (fun x y => x + y) 0)) i1)),
        []) := by
    unfold callSum
    dsimp only [unpackVarSequence]
    rw [hpop]
    rw [add_options_Constant]
    dsimp only [Variable.as_python_constant, List.isEmpty]
    rw [hred]
    rfl
  have hhs : handlerStep
      (fun e f i a k => callFunction (fuel + 2) e f i a k) env Fn.sumF selfI
      [.TupleV elems mt si] kwargs
      (canConstantFold Fn.sumF &&
        checkConstantArgs [.TupleV elems mt si] kwargs)
      (propagate selfI ([.TupleV elems mt si] ++ kwargs.map Prod.snd)) =
      (Except.ok (some ((Variable.Constant
          (.intP ((pySliceFrom ns k).foldl (fun x y => x + y) 0))
          i1).add_options
        (propagate selfI
          ([.TupleV elems mt si] ++ kwargs.map Prod.snd)))), []) := by
    unfold handlerStep
    rw [show lookupHandler Fn.sumF = some callSum from rfl]
    dsimp only
    rw [hcs]
  refine ⟨⟨i1.guards ∪ (propagate selfI
      ([Variable.TupleV elems mt si] ++ kwargs.map Prod.snd)).guards,
    match i1.source with
    | some s => some s
    | none => (propagate selfI
        ([Variable.TupleV elems mt si] ++
          kwargs.map Prod.snd)).source⟩, ?_⟩
  rw [callFunction_succ]
  rw [show canInsertInGraph Fn.sumF = false from rfl]
  simp only [Bool.false_and, Bool.false_eq_true, if_false, reduceIte]
  rw [hhs]
  rw [add_options_Constant]

/-- Witness for C6: `sum([1,2,3])` yields `Constant(6)` and
`sum([1,2,3], start=1)` yields `Constant(5)` (sum of the elements from
index 1 on). -/
theorem c6_sum_slice_semantics_witness :
    (∃ i : Info, callFunction 3 env0 .sumF ⟨∅, none⟩
        [.TupleV [cI 1, cI 2, cI 3] false ⟨∅, none⟩] [] =
      (Except.ok (.Constant (.intP 6) i), [])) ∧
    (∃ i : Info, callFunction 3 env0 .sumF ⟨∅, none⟩
        [.TupleV [cI 1, cI 2, cI 3] false ⟨∅, none⟩]
        [("start", cI 1)] =
      (Except.ok (.Constant (.intP 5) i), [])) :=
  ⟨c6_sum_slice_semantics 0 env0 ⟨∅, none⟩ [cI 1, cI 2, cI 3] false
      ⟨∅, none⟩ [1, 2, 3] [] 0 ⟨∅, none⟩ "cm"
      (fun _ _ _ _ => rfl) rfl rfl,
    c6_sum_slice_semantics 0 env0 ⟨∅, none⟩ [cI 1, cI 2, cI 3] false
      ⟨∅, none⟩ [1, 2, 3] [("start", cI 1)] 1 ⟨∅, none⟩ "cm"
      (fun _ _ _ _ => rfl) rfl rfl⟩

/-! ### C7: attribute resolution on a structured-object handle -/

/-- C7: on an `NNModuleVariable` receiver, `call_getattr` breaks when the
receiver has no provenance; otherwise it looks the name up in order
through the instance fields, the sub-module table, the parameter table and
the buffer table (first conjunct), wrapping a hit through the value
builder with module-derived provenance and the accumulated guards; a miss
falls back to a static lookup on the type: a property invokes its getter
against the receiver, a class method binds to the object's type, a static
method binds with no receiver, a plain function binds as a method against
the receiver, and anything else breaks naming the owner and member
types. -/
theorem c7_nnmodule_getattr (env : Env) (selfI : Info) (key : Nat)
    (i : Info) (nm : String) (base : NNModuleObj)
    (hsub : env.getSubmodule key = some base) :
    (nnLookup base nm = (base.fields.lookup nm).or
      ((base.modulesT.lookup nm).or ((base.parametersT.lookup nm).or
        (base.buffersT.lookup nm)))) ∧
    (i.source = none →
      callGetattrCore env selfI (.NNModule key i) nm =
        (Except.error (.unsupported "GETATTR with no source"),
          ["GETATTR with no source"])) ∧
    (∀ s0, i.source = some s0 →
      (∀ h, nnLookup base nm = some h →
        callGetattrCore env selfI (.NNModule key i) nm =
          buildAdd env (some (.nnModuleS (.attrS s0 nm))) h
            (propagate selfI [.NNModule key i,
              .Constant (.strP nm) ⟨∅, none⟩]).guards) ∧
      (nnLookup base nm = none →
        (base.staticAttrs.lookup nm = none →
          callGetattrCore env selfI (.NNModule key i) nm =
            (Except.error (.attributeError nm), [])) ∧
        (∀ g, base.staticAttrs.lookup nm = some (.propM g) →
          callGetattrCore env selfI (.NNModule key i) nm =
            env.userFnCall g
              (propagate selfI [.NNModule key i,
                .Constant (.strP nm) ⟨∅, none⟩]).guards
              (.NNModule key i)) ∧
        (∀ f, base.staticAttrs.lookup nm = some (.classMethodM f) →
          callGetattrCore env selfI (.NNModule key i) nm =
            (Except.ok (.UserMethod f
              (.UserObject (.userT base.typeName)
                ⟨(propagate selfI [.NNModule key i,
                  .Constant (.strP nm) ⟨∅, none⟩]).guards, none⟩)
              ⟨(propagate selfI [.NNModule key i,
                  .Constant (.strP nm) ⟨∅, none⟩]).guards,
                some (.attrS s0 nm)⟩), [])) ∧
        (∀ f, base.staticAttrs.lookup nm = some (.staticMethodM f) →
          callGetattrCore env selfI (.NNModule key i) nm =
            (Except.ok (.UserFunction f
              ⟨(propagate selfI [.NNModule key i,
                  .Constant (.strP nm) ⟨∅, none⟩]).guards,
                some (.attrS s0 nm)⟩), [])) ∧
        (∀ f, base.staticAttrs.lookup nm = some (.functionM f) →
          callGetattrCore env selfI (.NNModule key i) nm =
            (Except.ok (.UserMethod f (.NNModule key i)
              ⟨(propagate selfI [.NNModule key i,
                  .Constant (.strP nm) ⟨∅, none⟩]).guards,
                some (.attrS s0 nm)⟩), [])) ∧
        (∀ d, base.staticAttrs.lookup nm = some (.otherM d) →
          callGetattrCore env selfI (.NNModule key i) nm =
            (Except.error (.unsupported
                ("class property " ++ base.typeName ++ " " ++ d)),
              ["class property " ++ base.typeName ++ " " ++ d])))) := by
  constructor
  · unfold nnLookup
    cases hf : base.fields.lookup nm with
    | some h => simp [Option.or]
    | none =>
      cases hm2 : base.modulesT.lookup nm with
      | some h => simp [Option.or]
      | none =>
        cases hp2 : base.parametersT.lookup nm with
        | some h => simp [Option.or]
        | none => simp [Option.or]
  constructor
  · intro hsrc
    unfold callGetattrCore
    dsimp only [Variable.source, Variable.info]
    rw [hsub]
    dsimp only
    rw [hsrc, if_pos rfl]
    rfl
  · intro s0 hsrc
    constructor
    · intro h hl
      unfold callGetattrCore
      dsimp only [Variable.source, Variable.info]
      rw [hsub]
      dsimp only
      rw [hsrc, if_neg (Option.some_ne_none s0), hl]
      simp [Option.map_some']
    · intro hl
      refine ⟨?_, ?_, ?_, ?_, ?_, ?_⟩
      · intro hs
        unfold callGetattrCore
        dsimp only [Variable.source, Variable.info]
        rw [hsub]
        dsimp only
        rw [hsrc, if_neg (Option.some_ne_none s0), hl, hs]
        rfl
      · intro g hs
        unfold callGetattrCore
        dsimp only [Variable.source, Variable.info]
        rw [hsub]
        dsimp only
        rw [hsrc, if_neg (Option.some_ne_none s0), hl, hs]
      · intro f hs
        unfold callGetattrCore
        dsimp only [Variable.source, Variable.info]
        rw [hsub]
        dsimp only
        rw [hsrc, if_neg (Option.some_ne_none s0), hl, hs]
        simp [mret, Option.map_some']
      · intro f hs
        unfold callGetattrCore
        dsimp only [Variable.source, Variable.info]
        rw [hsub]
        dsimp only
        rw [hsrc, if_neg (Option.some_ne_none s0), hl, hs]
        simp [mret, Option.map_some']
      · intro f hs
        unfold callGetattrCore
        dsimp only [Variable.source, Variable.info]
        rw [hsub]
        dsimp only
        rw [hsrc, if_neg (Option.some_ne_none s0), hl, hs]
        simp [mret, Option.map_some']
      · intro d hs
        unfold callGetattrCore
        dsimp only [Variable.source, Variable.info]
        rw [hsub]
        dsimp only
        rw [hsrc, if_neg (Option.some_ne_none s0), hl, hs]
        rfl

/-- A concrete structured object: one instance field, one sub-module, one
parameter, and a plain function on the type. -/
def nnMod1 : NNModuleObj where
  fields := [("training", .primH (.boolP true))]
  modulesT := [("sub", .moduleH 3)]
  parametersT := [("w", .tensorH 7)]
  buffersT := []
  typeName := "Linear"
  staticAttrs := [("forward", .functionM ⟨"forward", "mymod", 0⟩)]

/-- An environment whose registry holds `nnMod1` at key 0 and whose value
builder wraps parameters as tensors carrying a provenance guard. -/
def env1 : Env :=
  { env0 with
    getSubmodule := fun k => if k = 0 then some nnMod1 else none,
    build := fun src _ => (Except.ok (.Tensor 7 none ⟨{5}, src⟩), []) }

/-- Witness for C7: resolving the parameter `w` goes through the value
builder with module-derived provenance; a receiver without provenance
breaks. -/
theorem c7_nnmodule_getattr_witness :
    callGetattrCore env1 ⟨∅, none⟩
        (.NNModule 0 ⟨∅, some (.localS "m")⟩) "w" =
      buildAdd env1 (some (.nnModuleS (.attrS (.localS "m") "w")))
        (.tensorH 7)
        (propagate ⟨∅, none⟩ [.NNModule 0 ⟨∅, some (.localS "m")⟩,
          .Constant (.strP "w") ⟨∅, none⟩]).guards ∧
    callGetattrCore env1 ⟨∅, none⟩ (.NNModule 0 ⟨∅, none⟩) "w" =
      (Except.error (.unsupported "GETATTR with no source"),
        ["GETATTR with no source"]) :=
  ⟨((c7_nnmodule_getattr env1 ⟨∅, none⟩ 0 ⟨∅, some (.localS "m")⟩ "w"
      nnMod1 rfl).2.2 (.localS "m") rfl).1 (.tensorH 7) rfl,
    (c7_nnmodule_getattr env1 ⟨∅, none⟩ 0 ⟨∅, none⟩ "w" nnMod1
      rfl).2.1 rfl⟩
